import Mathlib

/-!
Verification of the Ghost repository excerpt: the feature-flag ("labs")
module `core/shared/labs.js` and the e2e test bootstrap utilities
`test/utils/e2e-utils.js`, shallowly embedded in Lean 4.
-/

set_option autoImplicit false

namespace Ghost

/-- A JavaScript value as it occurs in the labs settings object: booleans,
numbers, strings, null and undefined.  This is the value universe needed by
`labs.js`, whose settings values are flat (no nested objects). -/
inductive JSVal where
  | vBool : Bool → JSVal
  | vNum : Int → JSVal
  | vStr : String → JSVal
  | vNull : JSVal
  | vUndefined : JSVal
  deriving DecidableEq, BEq, Repr

/-- JavaScript truthiness of a `JSVal`: false, 0, the empty string, null and
undefined are falsy, everything else is truthy. -/
def truthy : JSVal → Bool
  | JSVal.vBool b => b
  | JSVal.vNum n => n != 0
  | JSVal.vStr s => s != ""
  | JSVal.vNull => false
  | JSVal.vUndefined => false

/-- Truthiness of a property lookup: a missing property reads as undefined,
which is falsy. -/
def truthyOpt : Option JSVal → Bool
  | some v => truthy v
  | none => false

/-- A JavaScript object with `JSVal` properties, modelled as an association
list in property insertion order. -/
abbrev Obj : Type := List (String × JSVal)

/-- Property read `o[k]`: the first binding of `k`, or `none` (undefined). -/
def objGet : Obj → String → Option JSVal
  | [], _ => none
  | (k1, v) :: rest, k => if k1 = k then some v else objGet rest k

/-- Property deletion `delete o[k]`: removes every binding of `k`. -/
def objDelete : Obj → String → Obj
  | [], _ => []
  | (k1, v) :: rest, k => if k1 = k then objDelete rest k else (k1, v) :: objDelete rest k

/-- Property write `o[k] = v`: overwrites the first binding of `k` in place,
or appends a new binding when `k` is absent. -/
def objSet : Obj → String → JSVal → Obj
  | [], k, v => [(k, v)]
  | (k1, v1) :: rest, k, v => if k1 = k then (k, v) :: rest else (k1, v1) :: objSet rest k v

/-- The list of property keys of an object. -/
def objKeys (o : Obj) : List String := o.map Prod.fst

/-! ### The labs module: `core/shared/labs.js` -/

/-- Flags in this list always return true (`labs.js` line 17). -/
def GA_FEATURES : List String := ["customThemeSettings"]

/-- Beta-tier flags (`labs.js` line 23). -/
def BETA_FEATURES : List String := ["activitypub", "multipleProducts"]

/-- Alpha-tier flags (`labs.js` line 28). -/
def ALPHA_FEATURES : List String :=
  ["oauthLogin", "membersActivity", "cardSettingsPanel", "urlCache", "mediaAPI",
   "filesAPI", "membersAutoLogin", "buttonCard", "calloutCard", "nftCard",
   "accordionCard", "gifsCard", "fileCard", "audioCard", "videoCard", "productCard"]

/-- Source: `module.exports.GA_KEYS = [...GA_FEATURES]`. -/
def GA_KEYS : List String := GA_FEATURES

/-- Source: `module.exports.WRITABLE_KEYS_ALLOWLIST = [...BETA_FEATURES, ...ALPHA_FEATURES]`. -/
def WRITABLE_KEYS_ALLOWLIST : List String := BETA_FEATURES ++ ALPHA_FEATURES

/-- The environment read by the labs module: the cached labs setting
(`settingsCache.get` of the labs key; `none` models an unset or falsy value),
the cached members signup access setting, the config value
enableDeveloperExperiments, and the NODE_ENV environment variable. -/
structure Env where
  labs : Option Obj
  membersSignupAccess : JSVal
  enableDeveloperExperiments : JSVal
  nodeEnv : String

/-- The `startsWith` call of the source, as a character-list prefix test (so that
the kernel can evaluate it on literals). -/
def strStartsWith (s pre : String) : Bool := pre.data.isPrefixOf s.data

/-- The alpha-visibility condition of `getAll` (line 54):
`config.get` of enableDeveloperExperiments is truthy, or NODE_ENV starts
with the string test. -/
def devOrTest (env : Env) : Bool :=
  truthy env.enableDeveloperExperiments || strStartsWith env.nodeEnv ("test")

/-- One iteration of the ALPHA_FEATURES loop in `getAll`: delete the alpha
key when it is truthy and neither developer experiments nor a test
environment is active. -/
def alphaStep (d : Bool) (l : Obj) (k : String) : Obj :=
  if truthyOpt (objGet l k) && !d then objDelete l k else l

/-- One iteration of the GA_FEATURES loop in `getAll`: force the GA key to
true. -/
def gaStep (l : Obj) (k : String) : Obj := objSet l k (JSVal.vBool true)

/-- Embeds `module.exports.getAll` (lines 50 to 66): clone the cached labs setting
(or start from the empty object), delete hidden alpha keys, force every GA
key to true, and set the members key from the members signup access
setting. -/
def getAll (env : Env) : Obj :=
  let labs := env.labs.getD []
  let labs1 := ALPHA_FEATURES.foldl (alphaStep (devOrTest env)) labs
  let labs2 := GA_FEATURES.foldl gaStep labs1
  objSet labs2 ("members")
    (JSVal.vBool (decide (env.membersSignupAccess ≠ JSVal.vStr ("none"))))

/-- Embeds `module.exports.isSet` (lines 72 to 76): the flag reads from `getAll`
as a truthy value strictly equal to true. -/
def isSet (env : Env) (flag : String) : Bool :=
  match objGet (getAll env) flag with
  | some v => truthy v && v == JSVal.vBool true
  | none => false

/-! ### Boolean-valued objects -/

/-- Whether a `JSVal` is a boolean. -/
def isBoolVal : JSVal → Bool
  | JSVal.vBool _ => true
  | _ => false

/-- Whether every property value of an object is a boolean. -/
def allBool (o : Obj) : Bool := o.all (fun p => isBoolVal p.2)

/-! ### `enabledHelper` and `enabledMiddleware` -/

/-- The default error template strings of `labs.js` (lines 10 to 14). -/
structure Messages where
  errorMessage : String
  errorContext : String
  errorHelp : String
  deriving DecidableEq, Repr

def messages : Messages :=
  { errorMessage := "The \\\x7b\\\x7b\x7bhelperName\x7d\\\x7d\\\x7d helper is not available."
    errorContext := "The \x7bflagName\x7d flag must be enabled in labs if you wish to use the \\\x7b\\\x7b\x7bhelperName\x7d\\\x7d\\\x7d helper."
    errorHelp := "See \x7burl\x7d" }

/-- Modelled from the external template package used by `labs.js`: replaces
each brace-delimited placeholder with its datum. -/
def tpl (template : String) (data : List (String × String)) : String :=
  data.foldl (fun s p => s.replace ("\x7b" ++ p.1 ++ "\x7d") p.2) template

/-- JavaScript `a || b` on an optional string: the default wins when the
option is absent or falsy (the empty string). -/
def jsOrStr (o : Option String) (d : String) : String :=
  match o with
  | some s => if s == "" then d else s
  | none => d

/-- The options object of `enabledHelper`. -/
structure HelperOptions where
  flagKey : String
  flagName : String
  helperName : String
  errorMessage : Option String
  errorContext : Option String
  errorHelp : Option String
  helpUrl : String
  async : Bool
  deriving DecidableEq, Repr

/-- The fields of the DisabledFeatureError built by `enabledHelper`, in
insertion order: message, context, help. -/
structure ErrDetails where
  message : String
  context : String
  help : String
  deriving DecidableEq, Repr

/-- The error details `enabledHelper` builds from the default or overridden
templates (lines 101 to 107). -/
def helperErrDetails (options : HelperOptions) : ErrDetails :=
  { message := tpl (jsOrStr options.errorMessage messages.errorMessage)
      [("helperName", options.helperName)]
    context := tpl (jsOrStr options.errorContext messages.errorContext)
      [("helperName", options.helperName), ("flagName", options.flagName)]
    help := tpl (jsOrStr options.errorHelp messages.errorHelp)
      [("url", options.helpUrl)] }

/-- The SafeString content built by `enabledHelper` (line 112): the error
detail values joined by spaces inside a console.error script tag. -/
def helperErrString (options : HelperOptions) : String :=
  let d := helperErrDetails options
  "<script>console.error(\"" ++ d.message ++ " " ++ d.context ++ " " ++ d.help
    ++ "\");</script>"

/-- The value returned by `enabledHelper`: the callback result, or a
SafeString, the latter wrapped in a resolved Promise when the helper is
async. -/
inductive HelperResult (α : Type) where
  | callbackResult : α → HelperResult α
  | errorSafeString : String → HelperResult α
  | promisedErrorSafeString : String → HelperResult α
  deriving DecidableEq, Repr

/-- The observable outcome of `enabledHelper`: its return value and the
error logged, if any. -/
structure HelperOutcome (α : Type) where
  result : HelperResult α
  loggedError : Option ErrDetails
  deriving DecidableEq, Repr

/-- Embeds `module.exports.enabledHelper` (lines 92 to 119). -/
def enabledHelper {α : Type} (env : Env) (options : HelperOptions)
    (callback : Unit → α) : HelperOutcome α :=
  if isSet env options.flagKey = true then
    { result := HelperResult.callbackResult (callback ()), loggedError := none }
  else
    { result :=
        if options.async then
          HelperResult.promisedErrorSafeString (helperErrString options)
        else HelperResult.errorSafeString (helperErrString options)
      loggedError := some (helperErrDetails options) }

/-- The calls a middleware makes on its request, response and next
arguments. -/
inductive MWEffect where
  | nextNoArg : MWEffect
  | nextNotFoundError : MWEffect
  | resWrite : String → MWEffect
  deriving DecidableEq, Repr

/-- Embeds `module.exports.enabledMiddleware` (lines 121 to 127): the middleware
for a flag calls next with no argument when the flag is set and next with a
NotFoundError otherwise. -/
def enabledMiddleware (env : Env) (flag : String) : List MWEffect :=
  if isSet env flag = true then [MWEffect.nextNoArg]
  else [MWEffect.nextNotFoundError]

/-! ### A heap model of `getAll`

`getAll` deep-clones the cached labs settings object before mutating it
(`_.cloneDeep` on line 51).  To state that the settings cache is not
mutated, objects live in a heap addressed by naturals and the cache holds
an address; the clone allocates a fresh address and every mutation of the
loop body targets the clone. -/

structure Heap where
  objs : List (Nat × Obj)
  next : Nat

def heapGetList : List (Nat × Obj) → Nat → Option Obj
  | [], _ => none
  | (a1, o) :: rest, a => if a1 = a then some o else heapGetList rest a

/-- Read the object stored at an address. -/
def Heap.get (h : Heap) (a : Nat) : Option Obj := heapGetList h.objs a

def heapSetList : List (Nat × Obj) → Nat → Obj → List (Nat × Obj)
  | [], _, _ => []
  | (a1, o1) :: rest, a, o =>
      if a1 = a then (a1, o) :: rest else (a1, o1) :: heapSetList rest a o

/-- Mutate the object stored at an (existing) address. -/
def Heap.set (h : Heap) (a : Nat) (o : Obj) : Heap :=
  { h with objs := heapSetList h.objs a o }

/-- Allocate a fresh object, as `_.cloneDeep` does for its result. -/
def Heap.alloc (h : Heap) (o : Obj) : Nat × Heap :=
  (h.next, { objs := h.objs ++ [(h.next, o)], next := h.next + 1 })

/-- Heap well-formedness: every allocated address is below the allocation
counter. -/
abbrev Heap.wf (h : Heap) : Prop := ∀ p ∈ h.objs, p.1 < h.next

/-- One iteration of the ALPHA_FEATURES loop of `getAll`, acting on the
heap object at address `b`. -/
def alphaStepH (d : Bool) (b : Nat) (h : Heap) (k : String) : Heap :=
  if truthyOpt (objGet ((Heap.get h b).getD []) k) && !d then
    Heap.set h b (objDelete ((Heap.get h b).getD []) k)
  else h

/-- One iteration of the GA_FEATURES loop of `getAll`, acting on the heap
object at address `b`. -/
def gaStepH (b : Nat) (h : Heap) (k : String) : Heap :=
  Heap.set h b (objSet ((Heap.get h b).getD []) k (JSVal.vBool true))

/-- The configuration read by the heap version of `getAll`: the heap, the
cache entry for the labs key (an address or unset), and the scalar
settings. -/
structure HeapEnv where
  heap : Heap
  labsAddr : Option Nat
  membersSignupAccess : JSVal
  enableDeveloperExperiments : JSVal
  nodeEnv : String

/-- The pure environment read through a heap configuration. -/
def HeapEnv.toEnv (cs : HeapEnv) : Env :=
  { labs := cs.labsAddr.bind (fun a => Heap.get cs.heap a)
    membersSignupAccess := cs.membersSignupAccess
    enableDeveloperExperiments := cs.enableDeveloperExperiments
    nodeEnv := cs.nodeEnv }

/-- The function `getAll` with the mutations made explicit: clone the cached object to
the fresh address `cs.heap.next` (the address `Heap.alloc` hands out), run
the two loops and the members write against the clone, and return the
address of the clone with the final heap. -/
def getAllHeap (cs : HeapEnv) : Nat × Heap :=
  let stored := cs.labsAddr.bind (fun a => Heap.get cs.heap a)
  let b := cs.heap.next
  let h0 := (cs.heap.alloc (stored.getD [])).2
  let h1 := ALPHA_FEATURES.foldl (alphaStepH (devOrTest cs.toEnv) b) h0
  let h2 := GA_FEATURES.foldl (gaStepH b) h1
  let h3 := Heap.set h2 b (objSet ((Heap.get h2 b).getD []) ("members")
    (JSVal.vBool (decide (cs.membersSignupAccess ≠ JSVal.vStr ("none")))))
  (b, h3)

/-! ### The e2e bootstrap utilities: `test/utils/e2e-utils.js`

The bodies of `startGhost`, `restartModeGhostStart`, `freshModeGhostStart`
and `stopGhost` are straight-line async functions: each is embedded as the
trace of awaited or invoked steps it performs, in program order. -/

/-- One awaited or invoked step of the e2e bootstrap utilities. -/
inductive Step where
  | debugStartGhost : Step
  | prepareContent : Step
  | debugReloadMode : Step
  | dbTeardown : Step
  | knexInitOnly2 : Step
  | settingsInit : Step
  | routeSettingsInit : Step
  | themeInit : Step
  | urlReset : Step
  | urlInit : Bool → Step
  | urlIsFinished : Step
  | customRedirectsInit : Step
  | limitsInit : Step
  | debugForcedRestartMode : Step
  | debugFreshStartMode : Step
  | knexReset : Step
  | serverStop : Step
  | requireCacheDelete : Step
  | urlResetGenerators : Step
  | settingsShutdown : Step
  | knexInitFull : Step
  | bootGhost : Bool → Bool → Step
  | exposeFixturesStep : Step
  deriving DecidableEq, BEq, Repr

/-- The options of `startGhost` after the lodash merge with the defaults
(line 185); only the fields the control flow reads are kept. -/
structure StartOptions where
  backend : Bool
  frontend : Bool
  forceStart : Bool
  deriving DecidableEq, Repr

/-- The options argument of `startGhost` before the merge: each field may
be absent. -/
structure PartialStartOptions where
  backend : Option Bool
  frontend : Option Bool
  forceStart : Option Bool
  deriving DecidableEq, Repr

/-- The lodash merge of `startGhost` (line 185): present caller fields win
over the defaults backend true, frontend true, forceStart false. -/
def mergeStartOptions (o : PartialStartOptions) : StartOptions :=
  { backend := o.backend.getD true
    frontend := o.frontend.getD true
    forceStart := o.forceStart.getD false }

/-- Embeds `restartModeGhostStart` (lines 99 to 134): teardown, fixture re-init,
settings re-init, optional frontend re-init, URL service reset and re-init,
custom redirects and limits re-init, in program order. -/
def restartModeGhostStart (frontend : Bool) : List Step :=
  [Step.debugReloadMode, Step.dbTeardown, Step.knexInitOnly2, Step.settingsInit]
  ++ (if frontend then [Step.routeSettingsInit, Step.themeInit] else [])
  ++ [Step.urlReset, Step.urlInit (!frontend)]
  ++ (if frontend then [Step.urlIsFinished] else [])
  ++ [Step.customRedirectsInit, Step.limitsInit]

/-- Embeds `stopGhost` (lines 218 to 224): stop the server, evict the app from the
require cache and reset the URL generators, only when a ghost server with
an http server exists. -/
def stopGhostTrace (serverRunning : Bool) : List Step :=
  if serverRunning then [Step.serverStop, Step.requireCacheDelete, Step.urlResetGenerators]
  else []

/-- Embeds `freshModeGhostStart` (lines 147 to 180): reset the database, stop any
running server, shut down and re-init settings around a full database init,
reset URL generators, boot Ghost and optionally await the URL service. -/
def freshModeGhostStart (serverRunning : Bool) (options : StartOptions) : List Step :=
  [if options.forceStart then Step.debugForcedRestartMode else Step.debugFreshStartMode]
  ++ [Step.knexReset]
  ++ stopGhostTrace serverRunning
  ++ [Step.settingsShutdown, Step.knexInitFull, Step.settingsInit,
      Step.urlResetGenerators, Step.bootGhost options.backend options.frontend]
  ++ (if options.frontend then [Step.urlIsFinished] else [])

/-- The steps of `startGhost` (lines 182 to 216) before fixture exposure:
merge options, prepare the content folder, then either the restart path
(server with http server exists and no force start) or the fresh path. -/
def startGhostMainSteps (serverRunning : Bool) (po : PartialStartOptions) : List Step :=
  let options := mergeStartOptions po
  [Step.debugStartGhost, Step.prepareContent]
  ++ (if serverRunning && !options.forceStart then
        restartModeGhostStart options.frontend
      else freshModeGhostStart serverRunning options)

/-- The full step trace of `startGhost`, fixture exposure included. -/
def startGhostTrace (serverRunning : Bool) (po : PartialStartOptions) : List Step :=
  startGhostMainSteps serverRunning po ++ [Step.exposeFixturesStep]

/-- Whether a trace entered the restart path: `restartModeGhostStart` opens
with its debug call and nothing else emits it. -/
def executesRestartMode (tr : List Step) : Bool := tr.contains Step.debugReloadMode

/-- Whether a trace entered the fresh path: `freshModeGhostStart` opens
with one of its two debug calls and nothing else emits them. -/
def executesFreshMode (tr : List Step) : Bool :=
  tr.contains Step.debugForcedRestartMode || tr.contains Step.debugFreshStartMode

/-! #### Failure propagation in `startGhost` -/

/-- The outcome of the four fixture queries of `exposeFixtures` (lines 41
to 46), each a resolved value or a rejection. -/
structure FixtureQueries (ε α : Type) where
  roles : Except ε α
  users : Except ε α
  tags : Except ε α
  apiKeys : Except ε α

/-- Embeds `Promise.all` over the four fixture queries: the values in order, or
the first rejection. -/
def fixturesAll {ε α : Type} (q : FixtureQueries ε α) : Except ε (α × α × α × α) :=
  match q.roles with
  | Except.error e => Except.error e
  | Except.ok r =>
    match q.users with
    | Except.error e => Except.error e
    | Except.ok u =>
      match q.tags with
      | Except.error e => Except.error e
      | Except.ok t =>
        match q.apiKeys with
        | Except.error e => Except.error e
        | Except.ok a => Except.ok (r, u, t, a)

/-- The outcome of `exposeFixtures`: the exposed data, or the logged error
together with the `process.exit` code. -/
inductive ExposeResult (ε α : Type) where
  | completed : α → α → α → α → ExposeResult ε α
  | processExit : Nat → ε → ExposeResult ε α
  deriving DecidableEq, Repr

/-- Embeds `exposeFixtures` (lines 40 to 61): on success the results are stored;
any rejection is caught, logged to the console, and `process.exit(1)` is
called. -/
def exposeFixtures {ε α : Type} (q : FixtureQueries ε α) : ExposeResult ε α :=
  match fixturesAll q with
  | Except.ok (r, u, t, a) => ExposeResult.completed r u t a
  | Except.error e => ExposeResult.processExit 1 e

/-- Run a list of steps left to right, stopping at the first step whose
effect throws; nothing in `startGhost` catches such an error. -/
def runSteps {ε : Type} (eff : Step → Except ε Unit) : List Step → Except ε Unit
  | [] => Except.ok ()
  | s :: rest =>
    match eff s with
    | Except.error e => Except.error e
    | Except.ok _ => runSteps eff rest

/-- The observable outcome of a `startGhost` call. -/
inductive StartOutcome (ε : Type) where
  | started : StartOutcome ε
  | threw : ε → StartOutcome ε
  | exited : Nat → ε → StartOutcome ε
  deriving DecidableEq, Repr

/-- The function `startGhost` with fallible steps: an error of any step before fixture
exposure propagates to the caller uncaught; a fixture query rejection is
caught inside `exposeFixtures` and turns into a logged `process.exit(1)`. -/
def startGhostRun {ε α : Type} (serverRunning : Bool) (po : PartialStartOptions)
    (eff : Step → Except ε Unit) (q : FixtureQueries ε α) : StartOutcome ε :=
  match runSteps eff (startGhostMainSteps serverRunning po) with
  | Except.error e => StartOutcome.threw e
  | Except.ok _ =>
    match exposeFixtures q with
    | ExposeResult.completed _ _ _ _ => StartOutcome.started
    | ExposeResult.processExit c e => StartOutcome.exited c e

/-! ### Concrete configurations used to instantiate the theorems -/

/-- A production environment whose labs setting holds a key outside every
feature list. -/
def envFooSetting : Env :=
  { labs := some [("foo", JSVal.vBool true)]
    membersSignupAccess := JSVal.vStr ("all")
    enableDeveloperExperiments := JSVal.vBool false
    nodeEnv := "production" }

/-- A production environment with a truthy alpha flag stored. -/
def envAlphaProd : Env :=
  { labs := some [("oauthLogin", JSVal.vBool true)]
    membersSignupAccess := JSVal.vStr ("all")
    enableDeveloperExperiments := JSVal.vBool false
    nodeEnv := "production" }

/-- A production environment whose labs setting stores a number under a
beta flag. -/
def envBetaNumber : Env :=
  { labs := some [("activitypub", JSVal.vNum 1)]
    membersSignupAccess := JSVal.vStr ("none")
    enableDeveloperExperiments := JSVal.vBool false
    nodeEnv := "production" }

/-- A production environment whose labs setting is entirely
boolean-valued. -/
def envAllBoolean : Env :=
  { labs := some [("activitypub", JSVal.vBool true), ("oauthLogin", JSVal.vBool false)]
    membersSignupAccess := JSVal.vStr ("none")
    enableDeveloperExperiments := JSVal.vBool false
    nodeEnv := "production" }

/-- A production environment with no labs setting stored. -/
def envEmptyProd : Env :=
  { labs := none
    membersSignupAccess := JSVal.vStr ("all")
    enableDeveloperExperiments := JSVal.vBool false
    nodeEnv := "production" }

/-- Helper options for an async helper gated on a disabled alpha flag,
with no template overrides. -/
def sampleHelperOptions : HelperOptions :=
  { flagKey := "oauthLogin"
    flagName := "OAuth login"
    helperName := "oauth"
    errorMessage := none
    errorContext := none
    errorHelp := none
    helpUrl := "https://ghost.org/docs/"
    async := true }

/-- A one-object heap whose only address is held by the settings cache as
the labs value. -/
def sampleHeapEnv : HeapEnv :=
  { heap := { objs := [(0, [("oauthLogin", JSVal.vBool true), ("extra", JSVal.vStr ("x"))])], next := 1 }
    labsAddr := some 0
    membersSignupAccess := JSVal.vStr ("all")
    enableDeveloperExperiments := JSVal.vBool false
    nodeEnv := "production" }

/-- A step effect in which every bootstrap step succeeds. -/
def effAllOk : Step → Except String Unit := fun _ => Except.ok ()

/-- A step effect in which the database reset of the fresh path throws. -/
def effKnexResetFails : Step → Except String Unit := fun s =>
  if s = Step.knexReset then Except.error ("knex reset failed") else Except.ok ()

/-- Fixture queries in which the api key query rejects. -/
def queriesApiKeysFail : FixtureQueries String Nat :=
  { roles := Except.ok 1
    users := Except.ok 2
    tags := Except.ok 3
    apiKeys := Except.error ("api keys query failed") }

/-- The empty caller options of `startGhost`: every field defaulted. -/
def noStartOptions : PartialStartOptions :=
  { backend := none, frontend := none, forceStart := none }

/-! ## Lemmas -/

theorem objGet_objDelete_self (o : Obj) (k : String) : objGet (objDelete o k) k = none := by
  induction o with
  | nil => rfl
  | cons p rest ih =>
    obtain ⟨k1, v⟩ := p
    by_cases h : k1 = k
    · simp [objDelete, h, ih]
    · simp [objDelete, objGet, h, ih]

theorem objGet_objDelete_ne (o : Obj) (k k1 : String) (h : k ≠ k1) :
    objGet (objDelete o k1) k = objGet o k := by
  induction o with
  | nil => rfl
  | cons p rest ih =>
    obtain ⟨k2, v⟩ := p
    by_cases h2 : k2 = k1
    · subst h2
      simp [objDelete, objGet, Ne.symm h, ih]
    · by_cases h3 : k2 = k
      · subst h3
        simp [objDelete, objGet, h2]
      · simp [objDelete, h2, objGet, h3, ih]

theorem objGet_objSet_self (o : Obj) (k : String) (v : JSVal) :
    objGet (objSet o k v) k = some v := by
  induction o with
  | nil => simp [objSet, objGet]
  | cons p rest ih =>
    obtain ⟨k1, v1⟩ := p
    by_cases h : k1 = k
    · simp [objSet, h, objGet]
    · simp [objSet, h, objGet, ih]

theorem objGet_objSet_ne (o : Obj) (k k1 : String) (v : JSVal) (h : k ≠ k1) :
    objGet (objSet o k1 v) k = objGet o k := by
  induction o with
  | nil => simp [objSet, objGet, Ne.symm h]
  | cons p rest ih =>
    obtain ⟨k2, v1⟩ := p
    by_cases h2 : k2 = k1
    · subst h2
      simp [objSet, objGet, Ne.symm h]
    · by_cases h3 : k2 = k
      · subst h3
        simp [objSet, objGet, h2]
      · simp [objSet, h2, objGet, h3, ih]

/-! ### Lemmas about the two loops inside `getAll` -/

theorem objGet_alphaStep_ne (d : Bool) (l : Obj) (k k1 : String) (h : k ≠ k1) :
    objGet (alphaStep d l k1) k = objGet l k := by
  unfold alphaStep
  split
  · exact objGet_objDelete_ne l k k1 h
  · rfl

theorem objGet_alphaStep_none (d : Bool) (l : Obj) (k k1 : String)
    (h : objGet l k = none) : objGet (alphaStep d l k1) k = none := by
  by_cases h2 : k = k1
  · subst h2
    unfold alphaStep
    split
    · exact objGet_objDelete_self l k
    · exact h
  · rw [objGet_alphaStep_ne d l k k1 h2]
    exact h

theorem objGet_alphaFold_not_mem (d : Bool) (ks : List String) (l : Obj) (k : String)
    (h : k ∉ ks) : objGet (ks.foldl (alphaStep d) l) k = objGet l k := by
  induction ks generalizing l with
  | nil => rfl
  | cons k1 rest ih =>
    rw [List.foldl_cons]
    have hne : k ≠ k1 := fun hk => h (hk ▸ List.mem_cons_self k1 rest)
    rw [ih (alphaStep d l k1) (fun hm => h (List.mem_cons_of_mem k1 hm))]
    exact objGet_alphaStep_ne d l k k1 hne

theorem objGet_alphaFold_none (d : Bool) (ks : List String) (l : Obj) (k : String)
    (h : objGet l k = none) : objGet (ks.foldl (alphaStep d) l) k = none := by
  induction ks generalizing l with
  | nil => exact h
  | cons k1 rest ih =>
    rw [List.foldl_cons]
    exact ih (alphaStep d l k1) (objGet_alphaStep_none d l k k1 h)

theorem objGet_alphaFold_deleted (ks : List String) (l : Obj) (k : String)
    (hmem : k ∈ ks) (ht : truthyOpt (objGet l k) = true) :
    objGet (ks.foldl (alphaStep false) l) k = none := by
  induction ks generalizing l with
  | nil => exact absurd hmem (List.not_mem_nil k)
  | cons k1 rest ih =>
    rw [List.foldl_cons]
    by_cases h2 : k1 = k
    · subst h2
      have hdel : objGet (alphaStep false l k1) k1 = none := by
        unfold alphaStep
        simp [ht, objGet_objDelete_self]
      exact objGet_alphaFold_none false rest _ k1 hdel
    · have hpres : objGet (alphaStep false l k1) k = objGet l k :=
        objGet_alphaStep_ne false l k k1 (Ne.symm h2)
      have hmem2 : k ∈ rest := by
        rcases List.mem_cons.mp hmem with h3 | h3
        · exact absurd h3.symm h2
        · exact h3
      refine ih _ hmem2 ?_
      rw [hpres]
      exact ht

theorem alphaFold_dev (ks : List String) (l : Obj) :
    ks.foldl (alphaStep true) l = l := by
  induction ks generalizing l with
  | nil => rfl
  | cons k1 rest ih =>
    rw [List.foldl_cons]
    have : alphaStep true l k1 = l := by
      unfold alphaStep
      simp
    rw [this, ih]

theorem objGet_gaFold_not_mem (ks : List String) (l : Obj) (k : String)
    (h : k ∉ ks) : objGet (ks.foldl gaStep l) k = objGet l k := by
  induction ks generalizing l with
  | nil => rfl
  | cons k1 rest ih =>
    rw [List.foldl_cons]
    have hne : k ≠ k1 := fun hk => h (hk ▸ List.mem_cons_self k1 rest)
    rw [ih (gaStep l k1) (fun hm => h (List.mem_cons_of_mem k1 hm))]
    exact objGet_objSet_ne l k k1 (JSVal.vBool true) hne

theorem objGet_gaFold_true_pres (ks : List String) (l : Obj) (k : String)
    (h : objGet l k = some (JSVal.vBool true)) :
    objGet (ks.foldl gaStep l) k = some (JSVal.vBool true) := by
  induction ks generalizing l with
  | nil => exact h
  | cons k1 rest ih =>
    rw [List.foldl_cons]
    by_cases h2 : k = k1
    · subst h2
      exact ih (gaStep l k) (objGet_objSet_self l k (JSVal.vBool true))
    · exact ih (gaStep l k1) ((objGet_objSet_ne l k k1 (JSVal.vBool true) h2).trans h)

theorem objGet_gaFold_mem (ks : List String) (l : Obj) (k : String)
    (h : k ∈ ks) : objGet (ks.foldl gaStep l) k = some (JSVal.vBool true) := by
  induction ks generalizing l with
  | nil => exact absurd h (List.not_mem_nil k)
  | cons k1 rest ih =>
    rw [List.foldl_cons]
    by_cases h2 : k = k1
    · subst h2
      exact objGet_gaFold_true_pres rest _ k (objGet_objSet_self l k (JSVal.vBool true))
    · have hmem2 : k ∈ rest := by
        rcases List.mem_cons.mp h with h3 | h3
        · exact absurd h3 h2
        · exact h3
      exact ih (gaStep l k1) hmem2

/-! ### Characterisation of `getAll` lookups -/

/-- Keys outside GA_FEATURES and distinct from the members key that are
either not alpha-tier or are visible (developer experiments or test
environment) pass through `getAll` unchanged from the stored setting:
`getAll` performs no allowlist filtering of such keys. -/
theorem objGet_getAll_pass (env : Env) (k : String)
    (hga : k ∉ GA_FEATURES) (hm : k ≠ "members")
    (halpha : k ∉ ALPHA_FEATURES ∨ devOrTest env = true) :
    objGet (getAll env) k = objGet (env.labs.getD []) k := by
  unfold getAll
  rw [objGet_objSet_ne _ k _ _ hm, objGet_gaFold_not_mem _ _ _ hga]
  rcases halpha with h | h
  · exact objGet_alphaFold_not_mem _ _ _ _ h
  · rw [h, alphaFold_dev]

/-- Truthy alpha-tier keys are removed by `getAll` when neither developer
experiments nor a test environment is active. -/
theorem objGet_getAll_alpha_hidden (env : Env) (k : String)
    (hmem : k ∈ ALPHA_FEATURES)
    (ht : truthyOpt (objGet (env.labs.getD []) k) = true)
    (hd : devOrTest env = false) :
    objGet (getAll env) k = none := by
  have hside : k ∉ GA_FEATURES ∧ k ≠ "members" := by
    have : ∀ k1 ∈ ALPHA_FEATURES, k1 ∉ GA_FEATURES ∧ k1 ≠ "members" := by decide
    exact this k hmem
  unfold getAll
  rw [objGet_objSet_ne _ k _ _ hside.2, objGet_gaFold_not_mem _ _ _ hside.1, hd]
  exact objGet_alphaFold_deleted ALPHA_FEATURES _ k hmem ht

/-- Every GA key reads as true from `getAll`. -/
theorem objGet_getAll_ga (env : Env) (k : String) (h : k ∈ GA_FEATURES) :
    objGet (getAll env) k = some (JSVal.vBool true) := by
  have hm : k ≠ "members" := by
    have : ∀ k1 ∈ GA_FEATURES, k1 ≠ "members" := by decide
    exact this k h
  unfold getAll
  rw [objGet_objSet_ne _ k _ _ hm]
  exact objGet_gaFold_mem _ _ _ h

/-- The members key of `getAll` reflects the members signup access
setting. -/
theorem objGet_getAll_members (env : Env) :
    objGet (getAll env) ("members") =
      some (JSVal.vBool (decide (env.membersSignupAccess ≠ JSVal.vStr ("none")))) := by
  unfold getAll
  exact objGet_objSet_self _ _ _

theorem allBool_objDelete (o : Obj) (k : String) (h : allBool o = true) :
    allBool (objDelete o k) = true := by
  induction o with
  | nil => rfl
  | cons p rest ih =>
    obtain ⟨k1, v⟩ := p
    simp only [allBool, List.all_cons, Bool.and_eq_true] at h
    by_cases h2 : k1 = k
    · simpa [objDelete, h2] using ih h.2
    · simp only [objDelete, h2, if_false, allBool, List.all_cons, Bool.and_eq_true]
      exact ⟨h.1, ih h.2⟩

theorem allBool_objSet (o : Obj) (k : String) (v : JSVal)
    (h : allBool o = true) (hv : isBoolVal v = true) :
    allBool (objSet o k v) = true := by
  induction o with
  | nil => simpa [allBool, objSet] using hv
  | cons p rest ih =>
    obtain ⟨k1, v1⟩ := p
    simp only [allBool, List.all_cons, Bool.and_eq_true] at h
    by_cases h2 : k1 = k
    · simp only [objSet, h2, if_true, allBool, List.all_cons, Bool.and_eq_true]
      exact ⟨hv, h.2⟩
    · simp only [objSet, h2, if_false, allBool, List.all_cons, Bool.and_eq_true]
      exact ⟨h.1, ih h.2⟩

theorem allBool_alphaFold (d : Bool) (ks : List String) (l : Obj)
    (h : allBool l = true) : allBool (ks.foldl (alphaStep d) l) = true := by
  induction ks generalizing l with
  | nil => exact h
  | cons k1 rest ih =>
    rw [List.foldl_cons]
    refine ih _ ?_
    unfold alphaStep
    split
    · exact allBool_objDelete l k1 h
    · exact h

theorem allBool_gaFold (ks : List String) (l : Obj)
    (h : allBool l = true) : allBool (ks.foldl gaStep l) = true := by
  induction ks generalizing l with
  | nil => exact h
  | cons k1 rest ih =>
    rw [List.foldl_cons]
    exact ih _ (allBool_objSet l k1 (JSVal.vBool true) h rfl)

/-- When the stored labs setting is boolean-valued, so is the `getAll`
result. -/
theorem allBool_getAll (env : Env) (h : allBool (env.labs.getD []) = true) :
    allBool (getAll env) = true := by
  unfold getAll
  exact allBool_objSet _ _ _ (allBool_gaFold _ _ (allBool_alphaFold _ _ _ h)) rfl

theorem heapGetList_heapSetList_ne (l : List (Nat × Obj)) (a b : Nat) (o : Obj)
    (h : a ≠ b) : heapGetList (heapSetList l b o) a = heapGetList l a := by
  induction l with
  | nil => rfl
  | cons p rest ih =>
    obtain ⟨a1, o1⟩ := p
    by_cases h2 : a1 = b
    · subst h2
      simp [heapSetList, heapGetList, Ne.symm h]
    · by_cases h3 : a1 = a
      · subst h3
        simp [heapSetList, heapGetList, h2]
      · simp [heapSetList, h2, heapGetList, h3, ih]

theorem heapGetList_heapSetList_self (l : List (Nat × Obj)) (b : Nat) (o o0 : Obj)
    (h : heapGetList l b = some o0) :
    heapGetList (heapSetList l b o) b = some o := by
  induction l with
  | nil => exact absurd h (by simp [heapGetList])
  | cons p rest ih =>
    obtain ⟨a1, o1⟩ := p
    by_cases h2 : a1 = b
    · subst h2
      simp [heapSetList, heapGetList]
    · simp only [heapGetList, h2, if_false] at h
      simp [heapSetList, h2, heapGetList, ih h]

theorem heapGetList_append_fresh (l : List (Nat × Obj)) (n : Nat) (o : Obj)
    (h : ∀ p ∈ l, p.1 < n) :
    heapGetList (l ++ [(n, o)]) n = some o := by
  induction l with
  | nil => simp [heapGetList]
  | cons p rest ih =>
    obtain ⟨a1, o1⟩ := p
    have : a1 ≠ n := Nat.ne_of_lt (h (a1, o1) (List.mem_cons_self _ _))
    simp only [List.cons_append, heapGetList, this, if_false]
    exact ih (fun q hq => h q (List.mem_cons_of_mem _ hq))

theorem heapGetList_append_ne (l : List (Nat × Obj)) (n a : Nat) (o : Obj)
    (h : a ≠ n) : heapGetList (l ++ [(n, o)]) a = heapGetList l a := by
  induction l with
  | nil => simp [heapGetList, Ne.symm h]
  | cons p rest ih =>
    obtain ⟨a1, o1⟩ := p
    by_cases h2 : a1 = a
    · simp [heapGetList, h2]
    · simp [heapGetList, h2, ih]

theorem heapGet_alphaStepH_ne (d : Bool) (b : Nat) (h : Heap) (k : String)
    (a : Nat) (hne : a ≠ b) : Heap.get (alphaStepH d b h k) a = Heap.get h a := by
  unfold alphaStepH
  split
  · exact heapGetList_heapSetList_ne h.objs a b _ hne
  · rfl

theorem heapGet_alphaFoldH_ne (d : Bool) (b : Nat) (ks : List String) (h : Heap)
    (a : Nat) (hne : a ≠ b) :
    Heap.get (ks.foldl (alphaStepH d b) h) a = Heap.get h a := by
  induction ks generalizing h with
  | nil => rfl
  | cons k1 rest ih =>
    rw [List.foldl_cons, ih]
    exact heapGet_alphaStepH_ne d b h k1 a hne

theorem heapGet_gaFoldH_ne (b : Nat) (ks : List String) (h : Heap)
    (a : Nat) (hne : a ≠ b) :
    Heap.get (ks.foldl (gaStepH b) h) a = Heap.get h a := by
  induction ks generalizing h with
  | nil => rfl
  | cons k1 rest ih =>
    rw [List.foldl_cons, ih]
    exact heapGetList_heapSetList_ne h.objs a b _ hne

theorem heapGet_alphaStepH_self (d : Bool) (b : Nat) (h : Heap) (k : String)
    (o : Obj) (hb : Heap.get h b = some o) :
    Heap.get (alphaStepH d b h k) b = some (alphaStep d o k) := by
  unfold alphaStepH alphaStep
  rw [hb]
  simp only [Option.getD_some]
  split
  · exact heapGetList_heapSetList_self h.objs b _ o hb
  · exact hb

theorem heapGet_alphaFoldH_self (d : Bool) (b : Nat) (ks : List String) (h : Heap)
    (o : Obj) (hb : Heap.get h b = some o) :
    Heap.get (ks.foldl (alphaStepH d b) h) b = some (ks.foldl (alphaStep d) o) := by
  induction ks generalizing h o with
  | nil => exact hb
  | cons k1 rest ih =>
    rw [List.foldl_cons, List.foldl_cons]
    exact ih _ _ (heapGet_alphaStepH_self d b h k1 o hb)

theorem heapGet_gaStepH_self (b : Nat) (h : Heap) (k : String)
    (o : Obj) (hb : Heap.get h b = some o) :
    Heap.get (gaStepH b h k) b = some (gaStep o k) := by
  unfold gaStepH gaStep
  rw [hb]
  simp only [Option.getD_some]
  exact heapGetList_heapSetList_self h.objs b _ o hb

theorem heapGet_gaFoldH_self (b : Nat) (ks : List String) (h : Heap)
    (o : Obj) (hb : Heap.get h b = some o) :
    Heap.get (ks.foldl (gaStepH b) h) b = some (ks.foldl gaStep o) := by
  induction ks generalizing h o with
  | nil => exact hb
  | cons k1 rest ih =>
    rw [List.foldl_cons, List.foldl_cons]
    exact ih _ _ (heapGet_gaStepH_self b h k1 o hb)


/-! ### Further helper lemmas -/

theorem alpha_not_ga_not_members :
    ∀ k ∈ ALPHA_FEATURES, k ∉ GA_FEATURES ∧ k ≠ "members" := by decide

theorem heapGet_heapSet_ne (h : Heap) (b a : Nat) (o : Obj) (hne : a ≠ b) :
    Heap.get (Heap.set h b o) a = Heap.get h a :=
  heapGetList_heapSetList_ne h.objs a b o hne

theorem heapGet_heapSet_self (h : Heap) (b : Nat) (o o0 : Obj)
    (hb : Heap.get h b = some o0) :
    Heap.get (Heap.set h b o) b = some o :=
  heapGetList_heapSetList_self h.objs b o o0 hb

theorem heapGet_alloc_ne (h : Heap) (o : Obj) (a : Nat) (hne : a ≠ h.next) :
    Heap.get (h.alloc o).2 a = Heap.get h a :=
  heapGetList_append_ne h.objs h.next a o hne

theorem heapGet_alloc_self (h : Heap) (o : Obj) (hwf : Heap.wf h) :
    Heap.get (h.alloc o).2 h.next = some o :=
  heapGetList_append_fresh h.objs h.next o hwf

theorem fixturesAll_error_iff {ε α : Type} (q : FixtureQueries ε α) :
    (∃ e, fixturesAll q = Except.error e) ↔
    (∃ e, q.roles = Except.error e ∨ q.users = Except.error e ∨
          q.tags = Except.error e ∨ q.apiKeys = Except.error e) := by
  obtain ⟨r, u, t, a⟩ := q
  cases r <;> cases u <;> cases t <;> cases a <;>
    simp [fixturesAll, Except.bind]

/-- Unfolding `getAll` at the environment read through a heap
configuration. -/
theorem getAll_toEnv_eq (cs : HeapEnv) :
    getAll cs.toEnv =
      objSet (GA_FEATURES.foldl gaStep (ALPHA_FEATURES.foldl
          (alphaStep (devOrTest cs.toEnv))
          ((cs.labsAddr.bind (fun a => Heap.get cs.heap a)).getD [])))
        ("members")
        (JSVal.vBool (decide (cs.membersSignupAccess ≠ JSVal.vStr ("none")))) :=
  rfl

/-! ## Claim theorems -/

/-- Claim C1, counterexample: `getAll` does not filter by the allowlist.
In a production environment whose stored labs setting holds the key foo,
`getAll` returns foo although it is outside
GA_FEATURES ++ BETA_FEATURES ++ ALPHA_FEATURES and is not the members
key. -/
theorem getAll_key_outside_allowlist :
    "foo" ∈ objKeys (getAll envFooSetting) ∧
    "foo" ∉ GA_FEATURES ++ BETA_FEATURES ++ ALPHA_FEATURES ∧
    "foo" ≠ "members" := by decide

/-- Claim C1 (amended): `getAll` performs no allowlist filtering.  Every
key outside GA_FEATURES and distinct from the members key passes through
from the stored labs setting unchanged whenever it is not alpha-tier or
alpha flags are visible; the only keys ever removed are truthy alpha-tier
keys in a hidden environment. -/
theorem getAll_no_allowlist_filtering (env : Env) (k : String)
    (hga : k ∉ GA_FEATURES) (hm : k ≠ "members") :
    (k ∉ ALPHA_FEATURES ∨ devOrTest env = true →
      objGet (getAll env) k = objGet (env.labs.getD []) k)
    ∧ (k ∈ ALPHA_FEATURES → devOrTest env = false →
      truthyOpt (objGet (env.labs.getD []) k) = true →
      objGet (getAll env) k = none) := by
  constructor
  · intro h
    exact objGet_getAll_pass env k hga hm h
  · intro hmem hd ht
    exact objGet_getAll_alpha_hidden env k hmem ht hd

/-- Claim C1, witness for the amended theorem: the non-allowlist key foo
passes through `getAll` unchanged. -/
theorem getAll_no_allowlist_filtering_witness :
    objGet (getAll envFooSetting) ("foo") = some (JSVal.vBool true) := by
  have h := (getAll_no_allowlist_filtering envFooSetting ("foo")
    (by decide) (by decide)).1 (Or.inl (by decide))
  rw [h]
  decide

/-- Claim C2: a truthy alpha-tier flag is absent from `getAll` when
enableDeveloperExperiments is falsy and NODE_ENV does not start with test,
and present with its stored value when either condition holds. -/
theorem getAll_alpha_visibility (env : Env) (k : String)
    (hmem : k ∈ ALPHA_FEATURES)
    (ht : truthyOpt (objGet (env.labs.getD []) k) = true) :
    ((truthy env.enableDeveloperExperiments = false ∧
      strStartsWith env.nodeEnv ("test") = false) →
      objGet (getAll env) k = none)
    ∧ ((truthy env.enableDeveloperExperiments = true ∨
      strStartsWith env.nodeEnv ("test") = true) →
      objGet (getAll env) k = objGet (env.labs.getD []) k) := by
  have hside := alpha_not_ga_not_members k hmem
  constructor
  · intro hcond
    apply objGet_getAll_alpha_hidden env k hmem ht
    unfold devOrTest
    rw [hcond.1, hcond.2]
    rfl
  · intro hcond
    apply objGet_getAll_pass env k hside.1 hside.2
    right
    unfold devOrTest
    rcases hcond with h | h
    · rw [h]
      rfl
    · rw [h]
      simp

/-- Claim C2, witness: the truthy alpha flag oauthLogin disappears from
`getAll` in a production environment without developer experiments. -/
theorem getAll_alpha_visibility_witness :
    objGet (getAll envAlphaProd) ("oauthLogin") = none :=
  (getAll_alpha_visibility envAlphaProd ("oauthLogin") (by decide) (by decide)).1
    (by decide)

/-- Claim C7, counterexample: `getAll` does not map every flag to a
boolean.  A number stored under the beta flag activitypub is returned
unchanged. -/
theorem getAll_nonboolean_value :
    objGet (getAll envBetaNumber) ("activitypub") = some (JSVal.vNum 1) ∧
    allBool (getAll envBetaNumber) = false := by decide

/-- Claim C7 (amended): provided every value stored in the cached labs
setting is a boolean, every value in the object returned by `getAll` is a
boolean; `getAll` itself only injects booleans (the GA keys and the
members key) but passes non-boolean stored values through unchanged. -/
theorem getAll_boolean_values_amended (env : Env)
    (h : allBool (env.labs.getD []) = true) : allBool (getAll env) = true :=
  allBool_getAll env h

/-- Claim C7, witness for the amended theorem: a boolean-valued labs
setting yields a boolean-valued `getAll` result. -/
theorem getAll_boolean_values_amended_witness :
    allBool (getAll envAllBoolean) = true :=
  getAll_boolean_values_amended envAllBoolean (by decide)

/-- Claim C8: every GA-tier flag reads as true from `getAll` for every
environment, and `isSet` returns true for it. -/
theorem ga_features_always_enabled (env : Env) (k : String)
    (h : k ∈ GA_FEATURES) :
    objGet (getAll env) k = some (JSVal.vBool true) ∧ isSet env k = true := by
  have hg := objGet_getAll_ga env k h
  refine ⟨hg, ?_⟩
  unfold isSet
  rw [hg]
  rfl

/-- Claim C8, witness: customThemeSettings is enabled although no labs
setting is stored at all. -/
theorem ga_features_always_enabled_witness :
    objGet (getAll envEmptyProd) ("customThemeSettings") =
      some (JSVal.vBool true) ∧
    isSet envEmptyProd ("customThemeSettings") = true :=
  ga_features_always_enabled envEmptyProd ("customThemeSettings") (by decide)

/-- Claim C3: `enabledHelper` returns the callback result exactly when
`isSet` holds of the flag key; otherwise it logs a DisabledFeatureError
built from the default or overridden message, context and help templates
and returns the error SafeString, wrapped in a resolved Promise if and
only if the helper is async. -/
theorem enabledHelper_spec (α : Type) (env : Env) (options : HelperOptions)
    (cb : Unit → α) :
    (isSet env options.flagKey = true →
      enabledHelper env options cb =
        { result := HelperResult.callbackResult (cb ()), loggedError := none })
    ∧ (isSet env options.flagKey = false →
      (enabledHelper env options cb).loggedError = some (helperErrDetails options)
      ∧ ((enabledHelper env options cb).result =
          HelperResult.promisedErrorSafeString (helperErrString options) ↔
          options.async = true)
      ∧ ((enabledHelper env options cb).result =
          HelperResult.errorSafeString (helperErrString options) ↔
          options.async = false))
    ∧ ((enabledHelper env options cb).result =
        HelperResult.callbackResult (cb ()) ↔
        isSet env options.flagKey = true) := by
  by_cases h : isSet env options.flagKey = true
  · simp [enabledHelper, h]
  · have hf : isSet env options.flagKey = false := by
      cases hx : isSet env options.flagKey
      · rfl
      · exact absurd hx h
    by_cases ha : options.async = true
    · simp [enabledHelper, hf, ha]
    · have ha2 : options.async = false := by
        cases hx : options.async
        · rfl
        · exact absurd hx ha
      simp [enabledHelper, hf, ha2]

/-- Claim C3, witness: for a disabled alpha flag and an async helper, the
error details are logged and the SafeString is returned inside a resolved
Promise. -/
theorem enabledHelper_spec_witness :
    (enabledHelper envAlphaProd sampleHelperOptions (fun _ => (0 : Nat))).loggedError =
      some (helperErrDetails sampleHelperOptions) ∧
    (enabledHelper envAlphaProd sampleHelperOptions (fun _ => (0 : Nat))).result =
      HelperResult.promisedErrorSafeString (helperErrString sampleHelperOptions) := by
  have h := (enabledHelper_spec Nat envAlphaProd sampleHelperOptions
    (fun _ => (0 : Nat))).2.1 (by decide)
  exact ⟨h.1, h.2.1.mpr (by decide)⟩

/-- Claim C10: the middleware returned by `enabledMiddleware` calls next
with no argument exactly when the flag is set, otherwise calls next with a
NotFoundError, and never writes to the response itself. -/
theorem enabledMiddleware_gates_by_flag (env : Env) (flag : String) :
    (enabledMiddleware env flag = [MWEffect.nextNoArg] ↔ isSet env flag = true)
    ∧ (enabledMiddleware env flag = [MWEffect.nextNotFoundError] ↔
        isSet env flag = false)
    ∧ ∀ s, MWEffect.resWrite s ∉ enabledMiddleware env flag := by
  by_cases h : isSet env flag = true
  · simp [enabledMiddleware, h]
  · have hf : isSet env flag = false := by
      cases hx : isSet env flag
      · rfl
      · exact absurd hx h
    simp [enabledMiddleware, hf]

/-- Claim C10, witness: the GA flag lets the request through with a bare
next, the disabled alpha flag produces next with a NotFoundError. -/
theorem enabledMiddleware_gates_by_flag_witness :
    enabledMiddleware envEmptyProd ("customThemeSettings") =
      [MWEffect.nextNoArg] ∧
    enabledMiddleware envAlphaProd ("oauthLogin") =
      [MWEffect.nextNotFoundError] :=
  ⟨(enabledMiddleware_gates_by_flag envEmptyProd ("customThemeSettings")).1.mpr
      (by decide),
   (enabledMiddleware_gates_by_flag envAlphaProd ("oauthLogin")).2.1.mpr
      (by decide)⟩

/-- Claim C4: a `startGhost` call takes the restart path exactly when a
ghost server with an http server exists and the merged forceStart option
is false, takes the fresh path in every other case, and never takes both
paths. -/
theorem startGhost_two_paths (serverRunning : Bool) (po : PartialStartOptions) :
    (executesRestartMode (startGhostTrace serverRunning po) = true ↔
      serverRunning = true ∧ (mergeStartOptions po).forceStart = false)
    ∧ (executesFreshMode (startGhostTrace serverRunning po) = true ↔
      ¬(serverRunning = true ∧ (mergeStartOptions po).forceStart = false))
    ∧ ¬(executesRestartMode (startGhostTrace serverRunning po) = true ∧
        executesFreshMode (startGhostTrace serverRunning po) = true) := by
  obtain ⟨b, f, fs⟩ := po
  cases serverRunning <;> rcases b with _ | b <;> rcases f with _ | f <;>
    rcases fs with _ | fs <;> (try cases b) <;> (try cases f) <;>
    (try cases fs) <;> decide

/-- Claim C4, witness: with default options, a running server restarts and
a stopped server boots fresh. -/
theorem startGhost_two_paths_witness :
    executesRestartMode (startGhostTrace true noStartOptions) = true ∧
    executesFreshMode (startGhostTrace false noStartOptions) = true :=
  ⟨(startGhost_two_paths true noStartOptions).1.mpr (by decide),
   (startGhost_two_paths false noStartOptions).2.1.mpr (by decide)⟩

/-- Claim C5: the restart path is a fixed linear runbook.  For either
frontend mode, database teardown, the fixture init with only file 2, the
settings re-init, the URL service reset and re-init, the custom-redirects
re-init and the limits re-init occur in this order, and each of these
steps occurs exactly once (no retry). -/
theorem restartMode_sequential_runbook (frontend : Bool) :
    List.Sublist
      [Step.dbTeardown, Step.knexInitOnly2, Step.settingsInit, Step.urlReset,
       Step.urlInit (!frontend), Step.customRedirectsInit, Step.limitsInit]
      (restartModeGhostStart frontend)
    ∧ (restartModeGhostStart frontend).count Step.dbTeardown = 1
    ∧ (restartModeGhostStart frontend).count Step.knexInitOnly2 = 1
    ∧ (restartModeGhostStart frontend).count Step.settingsInit = 1
    ∧ (restartModeGhostStart frontend).count Step.urlReset = 1
    ∧ (restartModeGhostStart frontend).count (Step.urlInit (!frontend)) = 1
    ∧ (restartModeGhostStart frontend).count Step.customRedirectsInit = 1
    ∧ (restartModeGhostStart frontend).count Step.limitsInit = 1 := by
  cases frontend <;> decide

/-- Claim C6: a rejection of any of the four fixture queries is caught by
`exposeFixtures`, logged, and turned into `process.exit(1)`; an error of
any other `startGhost` step is not caught and propagates to the caller,
with no retry. -/
theorem exposeFixtures_exit_and_propagation (ε α : Type) (serverRunning : Bool)
    (po : PartialStartOptions) (eff : Step → Except ε Unit)
    (q : FixtureQueries ε α) :
    ((∃ e, q.roles = Except.error e ∨ q.users = Except.error e ∨
           q.tags = Except.error e ∨ q.apiKeys = Except.error e) →
      ∃ e, exposeFixtures q = ExposeResult.processExit 1 e)
    ∧ (∀ e, runSteps eff (startGhostMainSteps serverRunning po) = Except.error e →
        startGhostRun serverRunning po eff q = StartOutcome.threw e)
    ∧ (runSteps eff (startGhostMainSteps serverRunning po) = Except.ok () →
        ∀ e, fixturesAll q = Except.error e →
          startGhostRun serverRunning po eff q = StartOutcome.exited 1 e) := by
  refine ⟨?_, ?_, ?_⟩
  · intro hex
    obtain ⟨e, he⟩ := (fixturesAll_error_iff q).mpr hex
    refine ⟨e, ?_⟩
    unfold exposeFixtures
    rw [he]
  · intro e he
    unfold startGhostRun
    rw [he]
  · intro hok e he
    unfold startGhostRun
    rw [hok]
    unfold exposeFixtures
    rw [he]

/-- Claim C6, witness: with every bootstrap step succeeding and the api
key query rejecting, `startGhost` ends in a logged `process.exit(1)`. -/
theorem exposeFixtures_exit_and_propagation_witness :
    startGhostRun false noStartOptions effAllOk queriesApiKeysFail =
      StartOutcome.exited 1 ("api keys query failed") :=
  (exposeFixtures_exit_and_propagation String Nat false noStartOptions effAllOk
    queriesApiKeysFail).2.2 (by rfl) ("api keys query failed") (by rfl)

/-- Claim C9: `getAll` does not mutate the settings cache.  Every object of
the pre-existing heap, in particular the cached labs settings object, is
unchanged by `getAllHeap`, whose deletions, GA overrides and members
injection all land on the fresh deep clone, which holds exactly the pure
`getAll` result. -/
theorem getAll_does_not_mutate_cache (cs : HeapEnv) (hwf : Heap.wf cs.heap) :
    (∀ a, a < cs.heap.next → Heap.get (getAllHeap cs).2 a = Heap.get cs.heap a)
    ∧ Heap.get (getAllHeap cs).2 (getAllHeap cs).1 = some (getAll cs.toEnv) := by
  constructor
  · intro a ha
    have hne : a ≠ cs.heap.next := Nat.ne_of_lt ha
    unfold getAllHeap
    dsimp only
    rw [heapGet_heapSet_ne _ _ _ _ hne, heapGet_gaFoldH_ne _ _ _ _ hne,
        heapGet_alphaFoldH_ne _ _ _ _ _ hne, heapGet_alloc_ne _ _ _ hne]
  · have hstored := heapGet_alloc_self cs.heap
      ((cs.labsAddr.bind (fun a => Heap.get cs.heap a)).getD []) hwf
    have h1 := heapGet_alphaFoldH_self (devOrTest cs.toEnv) cs.heap.next
      ALPHA_FEATURES _ _ hstored
    have h2 := heapGet_gaFoldH_self cs.heap.next GA_FEATURES _ _ h1
    unfold getAllHeap
    dsimp only
    rw [heapGet_heapSet_self _ _ _ _ h2]
    rw [h2]
    rw [getAll_toEnv_eq cs]
    simp only [Option.getD_some]

/-- Claim C9, witness: on a one-object heap holding the labs setting at
address zero, the cached object is untouched and the clone holds the pure
`getAll` result. -/
theorem getAll_does_not_mutate_cache_witness :
    Heap.get (getAllHeap sampleHeapEnv).2 0 = Heap.get sampleHeapEnv.heap 0 ∧
    Heap.get (getAllHeap sampleHeapEnv).2 (getAllHeap sampleHeapEnv).1 =
      some (getAll sampleHeapEnv.toEnv) :=
 by
  have hwf : Heap.wf sampleHeapEnv.heap := by
    intro p hp
    simp only [sampleHeapEnv, List.mem_singleton] at hp
    subst hp
    decide
  exact ⟨(getAll_does_not_mutate_cache sampleHeapEnv hwf).1 0 (by decide),
         (getAll_does_not_mutate_cache sampleHeapEnv hwf).2⟩

end Ghost
